import Mathlib

/-!
Verification of the meteostat-weather-parser service against its design notes.

The development shallowly embeds the three Python modules:

* db_writer.py  : the Store (PostgreSQL table access) — get_last_timestamp and
  write_data (batch upsert with ON CONFLICT DO UPDATE);
* main.py       : the Sync Driver — run_parser (one fetch+write cycle) and the
  endless sleep-then-repeat loop;
* config.py     : startup configuration loading and validation.

Time is modelled as integer epoch seconds; naive Python datetimes are plain
integers (seconds of the naive reading, as if it were UTC).  Temperatures are
integers (scaled reals); only presence/absence and last-write-wins matter to
the claims, never temperature arithmetic.  The persisted table is a list of
(time, temperature) rows with a nullable temperature, mirroring the schema
columns time (unique key) and temperature (nullable).  External effects
(psycopg2 errors, the meteostat fetch outcome, the wall clock) enter as
explicit parameters of each cycle.
-/

/-! ## Store model (db_writer.py) -/

/-- A persisted table state: rows of (time, temperature), temperature nullable.
The unique constraint on time is a property we prove is preserved, not a
baked-in assumption. -/
abbrev Table := List (Int × Option Int)

/-- The time column of every row, in row order. -/
def keys (tb : Table) : List Int := tb.map (fun r => r.1)

/-- Whether some row of the table has time t. -/
def hasKey (tb : Table) (t : Int) : Bool := tb.any (fun r => r.1 == t)

/-- One row of the SQL upsert INSERT ... ON CONFLICT (time) DO UPDATE SET
temperature = EXCLUDED.temperature: if a row with the same time exists its
temperature is overwritten, otherwise the row is appended. -/
def upsertRow (tb : Table) (t : Int) (v : Int) : Table :=
  if hasKey tb t then
    tb.map (fun r => if r.1 = t then (t, some v) else r)
  else
    tb ++ [(t, some v)]

/-- The effect of execute_values applying the upsert to every tuple of the
batch in order (db_writer.py lines 140-147). -/
def upsertBatch (rows : List (Int × Int)) (tb : Table) : Table :=
  rows.foldl (fun acc r => upsertRow acc r.1 r.2) tb

/-- SELECT MAX(time) FROM table: the maximum time over all rows, none when the
table is empty (SQL MAX over an empty table is NULL). -/
def maxTime (tb : Table) : Option Int :=
  tb.foldl (fun acc r =>
    match acc with
    | none => some r.1
    | some m => some (max m r.1)) none

/-- get_last_timestamp (db_writer.py lines 85-111).  The dbError flag is the
external event of psycopg2 raising on connect or query; the except branch
logs and returns None, exactly as the empty-table branch does. -/
def get_last_timestamp (dbError : Bool) (tb : Table) : Option Int :=
  if dbError then none else maxTime tb

/-- The database-side failure of a write, psycopg2.Error. -/
inductive DbError
  | storeUnavailable
deriving DecidableEq

/-- Step 1 of write_data: df.dropna(subset = [temp]) followed by building the
list of (time, temperature) tuples — rows with an absent temperature are
dropped (db_writer.py lines 126-129). -/
def data_to_insert (df : List (Int × Option Int)) : List (Int × Int) :=
  df.filterMap (fun r => r.2.map (fun v => (r.1, v)))

/-- The single INSERT ... ON CONFLICT statement followed by commit, one
transaction: on a psycopg2 error nothing is applied, otherwise the whole
batch is applied (db_writer.py lines 136-148). -/
def dbExecuteBatch (dbError : Bool) (rows : List (Int × Int)) (tb : Table) :
    Except DbError Table :=
  if dbError then .error .storeUnavailable else .ok (upsertBatch rows tb)

/-- What a call of write_data leaves behind: the table state and the exception
the function raises to its caller, if any. -/
structure WriteOutcome where
  table : Table
  raised : Option DbError
deriving DecidableEq

/-- write_data (db_writer.py lines 114-152): filter null temperatures, return
early on an empty batch, run the transactional upsert, and catch any
psycopg2.Error (log and fall through to the implicit return None). -/
def write_data (dbError : Bool) (df : List (Int × Option Int)) (tb : Table) :
    WriteOutcome :=
  let rows := data_to_insert df
  if rows.isEmpty then ⟨tb, none⟩
  else
    match dbExecuteBatch dbError rows tb with
    | .ok tb2 => ⟨tb2, none⟩
    | .error _ => ⟨tb, none⟩

/-- The last value the batch writes at time t: the value of the last tuple of
rows whose time is t, if any. -/
def lastVal : List (Int × Int) → Int → Option Int
  | [], _ => none
  | r :: rs, t =>
    match lastVal rs t with
    | some v => some v
    | none => if r.1 = t then some r.2 else none

/-- Pointwise effect of a batch on one stored row: overwritten with the last
written value at its time, or untouched. -/
def overwrite (rows : List (Int × Int)) (x : Int × Option Int) :
    Int × Option Int :=
  match lastVal rows x.1 with
  | some v => (x.1, some v)
  | none => x

/-- All rows of the table at time t (with a unique constraint this has at most
one element). -/
def rowsAt (tb : Table) (t : Int) : Table := tb.filter (fun r => r.1 == t)

/-! ## Sync Driver model (main.py) -/

/-- Window start as run_parser computes it (main.py lines 182-187): the last
stored timestamp plus one hour when present, with no timezone interpretation
or conversion; otherwise the first datetime.now() reading minus DAYS_BACK
days.  All arithmetic is naive (timedelta on naive datetimes). -/
def computeStart (last : Option Int) (now1 : Int) (daysBack : Int) : Int :=
  match last with
  | some t => t + 3600
  | none => now1 - daysBack * 86400

/-- Model of Python datetime.now(): the naive local wall-clock reading, the
UTC instant shifted by the host utc offset in seconds. -/
def datetime_now (nowUtc : Int) (hostOffset : Int) : Int := nowUtc + hostOffset

/-- The fetch-window start as the spec words it (section 8, Window
correctness): interpret the stored naive timestamp in the Store timezone
(subtract its UTC offset in seconds to reach the UTC instant), then add one
hour.  Written from the spec only, to be compared with computeStart. -/
def specWindowStart (tzOffset : Int) (t : Int) : Int := (t - tzOffset) + 3600

/-- The external events one cycle is exposed to: whether the last-timestamp
query errors, what Hourly(point, start, end).fetch() yields (an exception or
a dataframe), whether the write transaction errors, and the two naive
datetime.now() readings of run_parser, in call order. -/
structure CycleEnv where
  dbReadError : Bool
  fetchResult : Except Unit (List (Int × Option Int))
  dbWriteError : Bool
  now1 : Int
  now2 : Int

/-- What one run_parser call did: whether the provider fetch was attempted,
whether write_data was called, and the resulting table state. -/
structure CycleResult where
  fetched : Bool
  wrote : Bool
  table : Table
deriving DecidableEq

/-- The body of the try block of run_parser (main.py lines 201-210): the
provider fetch, which may raise, then the write over a non-empty dataframe.
The Except layer is the exception that the try block can raise. -/
def fetchAndWriteBody (fetchResult : Except Unit (List (Int × Option Int)))
    (dbWriteError : Bool) (tb : Table) : Except Unit (Table × Bool) :=
  match fetchResult with
  | .error e => .error e
  | .ok df =>
    if df.isEmpty then .ok (tb, false)
    else .ok ((write_data dbWriteError df tb).table, true)

/-- run_parser (main.py lines 171-214): read the last timestamp, compute the
window, return early when already current, and run the fetch+write body under
except Exception (log and end the cycle). -/
def runParserCycle (env : CycleEnv) (daysBack : Int) (tb : Table) :
    CycleResult :=
  let last := get_last_timestamp env.dbReadError tb
  let startDate := computeStart last env.now1 daysBack
  let endDate := env.now2
  if startDate ≥ endDate then ⟨false, false, tb⟩
  else
    match fetchAndWriteBody env.fetchResult env.dbWriteError tb with
    | .ok (tb2, wrote) => ⟨true, wrote, tb2⟩
    | .error _ => ⟨true, false, tb⟩

/-- The observable state of the service loop: the table and how many cycles
have completed. -/
structure ServiceState where
  table : Table
  cyclesRun : Nat
deriving DecidableEq

/-- One iteration of the endless main loop (main.py lines 220-228): run the
cycle under the outermost except Exception, then sleep DELAY_MINUTES * 60
seconds.  The second component is the slept duration in seconds. -/
def serviceStep (env : CycleEnv) (daysBack : Int) (delayMinutes : Int)
    (s : ServiceState) : ServiceState × Int :=
  let c := runParserCycle env daysBack s.table
  (⟨c.table, s.cyclesRun + 1⟩, delayMinutes * 60)

/-- The first n iterations of the main loop, the cycle environments indexed by
cycle number. -/
def serviceRun (env : Nat → CycleEnv) (daysBack : Int) (delayMinutes : Int)
    (t0 : Table) : Nat → ServiceState
  | 0 => ⟨t0, 0⟩
  | n + 1 => (serviceStep (env n) daysBack delayMinutes
      (serviceRun env daysBack delayMinutes t0 n)).1

/-! ## Configuration model (config.py) -/

/-- The process environment: each variable either set to a string or unset,
matching os.getenv. -/
structure Env where
  LOCATION_NAME : Option String
  LAT : Option String
  LON : Option String
  DAYS_BACK : Option String
  DELAY_MINUTES : Option String
  POSTGRES_HOST : Option String
  POSTGRES_PORT : Option String
  POSTGRES_DB : Option String
  POSTGRES_USER : Option String
  POSTGRES_PASSWORD : Option String
  POSTGRES_TABLE : Option String

/-- Python truthiness of os.getenv(var) as used by the missing-variable check
(config.py line 35): falsy when unset or the empty string. -/
def present (v : Option String) : Bool :=
  match v with
  | none => false
  | some s => !s.isEmpty

/-- REQUIRED_VARS (config.py lines 31-34), paired with their values in the
given environment. -/
def REQUIRED_VARS (e : Env) : List (String × Option String) :=
  [("LAT", e.LAT), ("LON", e.LON), ("POSTGRES_HOST", e.POSTGRES_HOST),
   ("POSTGRES_PORT", e.POSTGRES_PORT), ("POSTGRES_DB", e.POSTGRES_DB),
   ("POSTGRES_USER", e.POSTGRES_USER),
   ("POSTGRES_PASSWORD", e.POSTGRES_PASSWORD),
   ("POSTGRES_TABLE", e.POSTGRES_TABLE)]

/-- missing_vars (config.py line 35): the required variables whose value is
falsy. -/
def missing_vars (e : Env) : List String :=
  ((REQUIRED_VARS e).filter (fun p => !present p.2)).map (fun p => p.1)

/-- True on digit characters only. -/
def allDigits (cs : List Char) : Bool := cs.all (fun c => c.isDigit)

/-- Value of a digit string read in base 10. -/
def digitsToNat (cs : List Char) : Nat :=
  cs.foldl (fun a c => a * 10 + (c.toNat - 48)) 0

/-- Strip a leading sign character: (isNegative, remaining characters). -/
def splitSign (cs : List Char) : Bool × List Char :=
  match cs with
  | [] => (false, [])
  | c :: r =>
    if c = '-' then (true, r)
    else if c = '+' then (false, r)
    else (false, c :: r)

/-- A parsed Python float held exactly as the decimal it was written as: the
value is mantissa divided by ten to the scale, negated when neg is set.  The
claims never compute with latitude or longitude, so the exact decimal form
is kept instead of a normalized rational. -/
structure PyFloat where
  neg : Bool
  mantissa : Nat
  scale : Nat
deriving DecidableEq

/-- Model of Python float() on plain decimal literals: an optional sign, then
digits with an optional single decimal point, at least one digit overall.
Exotic accepted forms (exponents, inf, nan, underscores, surrounding
whitespace) are outside the model. -/
def pyFloat? (s : String) : Option PyFloat :=
  let signBody := splitSign s.data
  let ipart := signBody.2.takeWhile (fun c => c ≠ '.')
  let rest := signBody.2.drop ipart.length
  let fp : List Char :=
    match rest with
    | [] => []
    | _ :: f => f
  if allDigits ipart && allDigits fp && (!ipart.isEmpty || !fp.isEmpty) then
    some ⟨signBody.1, digitsToNat ipart * 10 ^ fp.length + digitsToNat fp,
      fp.length⟩
  else none

/-- Model of Python int() on plain decimal literals: an optional sign then at
least one digit. -/
def pyInt? (s : String) : Option Int :=
  let signBody := splitSign s.data
  if !signBody.2.isEmpty && allDigits signBody.2 then
    some (if signBody.1 then -(digitsToNat signBody.2 : Int)
          else (digitsToNat signBody.2 : Int))
  else none

/-- The two ways config.py terminates the process early: the missing-variable
check (line 41) and the except branch of the conversion block (line 68). -/
inductive ConfigError
  | missingRequired (vars : List String)
  | badFormat
deriving DecidableEq

/-- The module-level settings config.py exposes after a successful load.  The
Store connection strings are kept exactly as os.getenv returned them. -/
structure Config where
  locationName : String
  lat : PyFloat
  lon : PyFloat
  daysBack : Int
  delayMinutes : Int
  pgHost : Option String
  pgPort : Int
  pgDb : Option String
  pgUser : Option String
  pgPassword : Option String
  pgTable : Option String
deriving DecidableEq

/-- float(os.getenv(var)): TypeError on an unset variable, ValueError on a
non-numeric string, both landing in the except branch. -/
def floatOf (v : Option String) : Except ConfigError PyFloat :=
  match v with
  | none => .error .badFormat
  | some s =>
    match pyFloat? s with
    | some q => .ok q
    | none => .error .badFormat

/-- int(os.getenv(var)) with no default. -/
def intOf (v : Option String) : Except ConfigError Int :=
  match v with
  | none => .error .badFormat
  | some s =>
    match pyInt? s with
    | some n => .ok n
    | none => .error .badFormat

/-- int(os.getenv(var, d)): os.getenv substitutes the default only when the
variable is unset; a set but non-numeric value still raises ValueError. -/
def intOfD (v : Option String) (d : Int) : Except ConfigError Int :=
  match v with
  | none => .ok d
  | some s =>
    match pyInt? s with
    | some n => .ok n
    | none => .error .badFormat

/-- The import-time body of config.py (lines 31-68): the missing-variable
check, then the conversions in source order, any failure exiting the process
(modelled as the error outcome). -/
def loadConfig (e : Env) : Except ConfigError Config :=
  if missing_vars e ≠ [] then .error (.missingRequired (missing_vars e))
  else
    match floatOf e.LAT with
    | .error err => .error err
    | .ok lat =>
      match floatOf e.LON with
      | .error err => .error err
      | .ok lon =>
        match intOfD e.DAYS_BACK 30 with
        | .error err => .error err
        | .ok db =>
          match intOfD e.DELAY_MINUTES 65 with
          | .error err => .error err
          | .ok dm =>
            match intOf e.POSTGRES_PORT with
            | .error err => .error err
            | .ok port =>
              .ok ⟨e.LOCATION_NAME.getD "Default Location", lat, lon, db, dm,
                   e.POSTGRES_HOST, port, e.POSTGRES_DB, e.POSTGRES_USER,
                   e.POSTGRES_PASSWORD, e.POSTGRES_TABLE⟩

instance {ε α : Type} [DecidableEq ε] [DecidableEq α] :
    DecidableEq (Except ε α) := fun a b =>
  match a, b with
  | .ok x, .ok y =>
    if h : x = y then isTrue (by rw [h])
    else isFalse (fun hc => h (Except.ok.inj hc))
  | .error x, .error y =>
    if h : x = y then isTrue (by rw [h])
    else isFalse (fun hc => h (Except.error.inj hc))
  | .ok _, .error _ => isFalse (fun hc => Except.noConfusion hc)
  | .error _, .ok _ => isFalse (fun hc => Except.noConfusion hc)

/-- Whether the startup outcome is the fail-fast sys.exit path. -/
def startupExits (r : Except ConfigError Config) : Bool :=
  match r with
  | .error _ => true
  | .ok _ => false

/-- The whole process: import config (exiting on a configuration error before
any cycle can run), then iterate the main loop n times.  none means the
process exited at startup and no cycle ever ran. -/
def mainProcess (e : Env) (cenv : Nat → CycleEnv) (t0 : Table) (n : Nat) :
    Option ServiceState :=
  match loadConfig e with
  | .error _ => none
  | .ok c => some (serviceRun cenv c.daysBack c.delayMinutes t0 n)

/-! ## Helper lemmas -/

theorem write_data_raised_none (e : Bool) (df : List (Int × Option Int))
    (tb : Table) : (write_data e df tb).raised = none := by
  unfold write_data dbExecuteBatch
  by_cases h : (data_to_insert df).isEmpty <;> cases e <;> simp [h]

theorem write_data_table_cases (e : Bool) (df : List (Int × Option Int))
    (tb : Table) :
    (write_data e df tb).table = tb ∨
      (write_data e df tb).table = upsertBatch (data_to_insert df) tb := by
  unfold write_data dbExecuteBatch
  by_cases h : (data_to_insert df).isEmpty <;> cases e <;> simp [h]

theorem write_data_table_err (df : List (Int × Option Int)) (tb : Table) :
    (write_data true df tb).table = tb := by
  unfold write_data dbExecuteBatch
  by_cases h : (data_to_insert df).isEmpty <;> simp [h]

theorem write_data_table_ok (df : List (Int × Option Int)) (tb : Table)
    (h : (data_to_insert df).isEmpty = false) :
    (write_data false df tb).table = upsertBatch (data_to_insert df) tb := by
  unfold write_data dbExecuteBatch
  simp [h]

theorem map_congr_mem {α β : Type} {f g : α → β} :
    ∀ {l : List α}, (∀ a ∈ l, f a = g a) → l.map f = l.map g := by
  intro l
  induction l with
  | nil => intro _; rfl
  | cons a as ih =>
    intro h
    simp only [List.map_cons]
    rw [h a (List.mem_cons_self a as), ih (fun b hb => h b (List.mem_cons_of_mem a hb))]

theorem hasKey_iff (tb : Table) (t : Int) :
    hasKey tb t = true ↔ ∃ r ∈ tb, r.1 = t := by
  simp [hasKey, List.any_eq_true]

theorem mem_keys_iff (tb : Table) (t : Int) :
    t ∈ keys tb ↔ ∃ r ∈ tb, r.1 = t := by
  simp [keys]

theorem hasKey_eq_mem_keys (tb : Table) (t : Int) :
    hasKey tb t = true ↔ t ∈ keys tb := by
  rw [hasKey_iff, mem_keys_iff]

theorem key_upsertFun (t v : Int) (r : Int × Option Int) :
    (if r.1 = t then ((t, some v) : Int × Option Int) else r).1 = r.1 := by
  by_cases h : r.1 = t <;> simp [h]

theorem keys_upsertRow_pos {tb : Table} {t : Int} (v : Int)
    (h : hasKey tb t = true) : keys (upsertRow tb t v) = keys tb := by
  simp only [upsertRow, if_pos h, keys, List.map_map]
  exact map_congr_mem (fun r _ => key_upsertFun t v r)

theorem keys_upsertRow_neg {tb : Table} {t : Int} (v : Int)
    (h : hasKey tb t = false) :
    keys (upsertRow tb t v) = keys tb ++ [t] := by
  simp [upsertRow, h, keys]

theorem mem_keys_upsertRow {tb : Table} {s t : Int} (v : Int)
    (h : s ∈ keys tb) : s ∈ keys (upsertRow tb t v) := by
  cases hk : hasKey tb t with
  | true => rw [keys_upsertRow_pos v hk]; exact h
  | false => rw [keys_upsertRow_neg v hk]; exact List.mem_append_left _ h

theorem self_mem_keys_upsertRow (tb : Table) (t v : Int) :
    t ∈ keys (upsertRow tb t v) := by
  cases hk : hasKey tb t with
  | true => rw [keys_upsertRow_pos v hk]; exact (hasKey_eq_mem_keys tb t).1 hk
  | false => rw [keys_upsertRow_neg v hk]; simp

theorem upsertBatch_nil (tb : Table) : upsertBatch [] tb = tb := rfl

theorem upsertBatch_cons (a : Int × Int) (rs : List (Int × Int)) (tb : Table) :
    upsertBatch (a :: rs) tb = upsertBatch rs (upsertRow tb a.1 a.2) := rfl

theorem mem_keys_upsertBatch (rows : List (Int × Int)) :
    ∀ (tb : Table) (s : Int), s ∈ keys tb → s ∈ keys (upsertBatch rows tb) := by
  induction rows with
  | nil => intro tb s h; exact h
  | cons a rs ih =>
    intro tb s h
    rw [upsertBatch_cons]
    exact ih _ s (mem_keys_upsertRow a.2 h)

theorem keys_upsertBatch_of_mem (rows : List (Int × Int)) :
    ∀ (tb : Table) (r : Int × Int), r ∈ rows →
      r.1 ∈ keys (upsertBatch rows tb) := by
  induction rows with
  | nil => intro tb r h; cases h
  | cons a rs ih =>
    intro tb r h
    rw [upsertBatch_cons]
    rcases List.mem_cons.1 h with h | h
    · subst h
      exact mem_keys_upsertBatch rs _ r.1 (self_mem_keys_upsertRow tb r.1 r.2)
    · exact ih _ r h

theorem rowsAt_map_repl {t : Int} (v : Int) {τ : Int} (h : t ≠ τ) :
    ∀ (tb : Table),
      rowsAt (tb.map (fun r => if r.1 = t then (t, some v) else r)) τ
        = rowsAt tb τ := by
  intro tb
  induction tb with
  | nil => rfl
  | cons r rs ih =>
    simp only [List.map_cons, rowsAt, List.filter_cons] at ih ⊢
    by_cases hr : r.1 = t
    · have h1 : ((if r.1 = t then ((t, some v) : Int × Option Int) else r).1 == τ) = false := by
        simp [hr, h]
      have h2 : (r.1 == τ) = false := by
        simp [hr, h]
      rw [h1, h2]
      exact ih
    · have h1 : (if r.1 = t then ((t, some v) : Int × Option Int) else r) = r := by
        simp [hr]
      rw [h1]
      by_cases h2 : r.1 = τ
      · simp only [h2, beq_self_eq_true, if_pos]
        rw [ih]
      · have h3 : (r.1 == τ) = false := by simp [h2]
        rw [h3]
        exact ih

theorem rowsAt_upsertRow_ne {tb : Table} {t : Int} (v : Int) {τ : Int}
    (h : t ≠ τ) : rowsAt (upsertRow tb t v) τ = rowsAt tb τ := by
  unfold upsertRow
  cases hk : hasKey tb t with
  | true =>
    simp only [if_pos]
    exact rowsAt_map_repl v h tb
  | false =>
    simp only [Bool.false_eq_true, if_neg, not_false_iff]
    unfold rowsAt
    rw [List.filter_append]
    have : List.filter (fun r => r.1 == τ) [((t, some v) : Int × Option Int)] = [] := by
      simp [h]
    rw [this, List.append_nil]

theorem rowsAt_upsertBatch_not_mem (rows : List (Int × Int)) :
    ∀ (tb : Table) (τ : Int), (∀ r ∈ rows, r.1 ≠ τ) →
      rowsAt (upsertBatch rows tb) τ = rowsAt tb τ := by
  induction rows with
  | nil => intro tb τ _; rfl
  | cons a rs ih =>
    intro tb τ h
    rw [upsertBatch_cons, ih _ τ (fun r hr => h r (List.mem_cons_of_mem a hr)),
      rowsAt_upsertRow_ne a.2 (h a (List.mem_cons_self a rs))]

theorem mem_upsertRow {tb : Table} {t v : Int} {x : Int × Option Int}
    (hx : x ∈ upsertRow tb t v) : x = (t, some v) ∨ x ∈ tb := by
  unfold upsertRow at hx
  cases hk : hasKey tb t with
  | true =>
    rw [if_pos hk] at hx
    rcases List.mem_map.1 hx with ⟨r, hr, hfr⟩
    by_cases h : r.1 = t
    · left; rw [← hfr, if_pos h]
    · right; rw [← hfr, if_neg h]; exact hr
  | false =>
    rw [hk] at hx
    simp only [Bool.false_eq_true, if_neg, not_false_iff] at hx
    rcases List.mem_append.1 hx with h | h
    · right; exact h
    · left; simpa using h

theorem val_upsertRow_at {tb : Table} {t v : Int} {x : Int × Option Int}
    (hx : x ∈ upsertRow tb t v) (hk : x.1 = t) : x = (t, some v) := by
  unfold upsertRow at hx
  cases hK : hasKey tb t with
  | true =>
    rw [if_pos hK] at hx
    rcases List.mem_map.1 hx with ⟨r, hr, hfr⟩
    by_cases h : r.1 = t
    · rw [← hfr, if_pos h]
    · exfalso
      rw [← hfr, if_neg h] at hk
      exact h hk
  | false =>
    rw [hK] at hx
    simp only [Bool.false_eq_true, if_neg, not_false_iff] at hx
    rcases List.mem_append.1 hx with h | h
    · exfalso
      have : hasKey tb t = true := (hasKey_iff tb t).2 ⟨x, h, hk⟩
      rw [hK] at this
      exact Bool.false_ne_true this
    · simpa using h

theorem lastVal_cons (a : Int × Int) (rs : List (Int × Int)) (t : Int) :
    lastVal (a :: rs) t = match lastVal rs t with
      | some v => some v
      | none => if a.1 = t then some a.2 else none := rfl

theorem lastVal_eq_none_iff (rows : List (Int × Int)) (τ : Int) :
    lastVal rows τ = none ↔ ∀ r ∈ rows, r.1 ≠ τ := by
  induction rows with
  | nil => simp [lastVal]
  | cons a rs ih =>
    rw [lastVal_cons]
    cases h : lastVal rs τ with
    | some v =>
      constructor
      · intro hc
        exact absurd hc (by simp)
      · intro hall
        have h2 := ih.2 (fun r hr => hall r (List.mem_cons_of_mem a hr))
        rw [h2] at h
        exact Option.noConfusion h
    | none =>
      by_cases ha : a.1 = τ
      · rw [if_pos ha]
        constructor
        · intro hc
          exact absurd hc (by simp)
        · intro hall
          exact absurd ha (hall a (List.mem_cons_self a rs))
      · rw [if_neg ha]
        constructor
        · intro _ r hr
          rcases List.mem_cons.1 hr with he | he
          · rw [he]; exact ha
          · exact ih.1 h r he
        · intro _; rfl

theorem overwrite_nil (x : Int × Option Int) : overwrite [] x = x := rfl

theorem overwrite_repl (a : Int × Int) (rs : List (Int × Int))
    (x : Int × Option Int) :
    overwrite rs (if x.1 = a.1 then (a.1, some a.2) else x)
      = overwrite (a :: rs) x := by
  by_cases hx : x.1 = a.1
  · rw [if_pos hx]
    cases h : lastVal rs a.1 with
    | some v => simp [overwrite, lastVal_cons, hx, h]
    | none => simp [overwrite, lastVal_cons, hx, h]
  · rw [if_neg hx]
    cases h : lastVal rs x.1 with
    | some v => simp [overwrite, lastVal_cons, h]
    | none =>
      have ha : ¬ a.1 = x.1 := fun he => hx he.symm
      simp [overwrite, lastVal_cons, h, ha]

theorem upsertBatch_inplace (rows : List (Int × Int)) :
    ∀ (tb : Table), (∀ r ∈ rows, hasKey tb r.1 = true) →
      upsertBatch rows tb = tb.map (overwrite rows) := by
  induction rows with
  | nil =>
    intro tb _
    rw [upsertBatch_nil]
    have h : tb.map (overwrite []) = tb.map (fun x => x) :=
      map_congr_mem (fun x _ => overwrite_nil x)
    rw [h, List.map_id']
  | cons a rs ih =>
    intro tb hall
    have hk : hasKey tb a.1 = true := hall a (List.mem_cons_self a rs)
    have hrest : ∀ r ∈ rs, hasKey (upsertRow tb a.1 a.2) r.1 = true := by
      intro r hr
      rw [hasKey_eq_mem_keys]
      exact mem_keys_upsertRow a.2
        ((hasKey_eq_mem_keys tb r.1).1 (hall r (List.mem_cons_of_mem a hr)))
    rw [upsertBatch_cons, ih _ hrest]
    unfold upsertRow
    rw [if_pos hk, List.map_map]
    exact map_congr_mem (fun x _ => overwrite_repl a rs x)

theorem upsertBatch_final_val (rows : List (Int × Int)) :
    ∀ (tb : Table) (x : Int × Option Int), x ∈ upsertBatch rows tb →
      ∀ v, lastVal rows x.1 = some v → x = (x.1, some v) := by
  induction rows with
  | nil =>
    intro tb x _ v hv
    exact Option.noConfusion hv
  | cons a rs ih =>
    intro tb x hx v hv
    rw [upsertBatch_cons] at hx
    cases h : lastVal rs x.1 with
    | some w =>
      have hw : lastVal (a :: rs) x.1 = some w := by
        rw [lastVal_cons, h]
      rw [hw] at hv
      injection hv with hv
      rw [← hv]
      exact ih _ x hx w h
    | none =>
      have hv2 : (if a.1 = x.1 then some a.2 else none) = some v := by
        rw [lastVal_cons, h] at hv
        exact hv
      by_cases ha : a.1 = x.1
      · rw [if_pos ha] at hv2
        injection hv2 with hv2
        have hnone : ∀ r ∈ rs, r.1 ≠ x.1 := (lastVal_eq_none_iff rs x.1).1 h
        have hrows : rowsAt (upsertBatch rs (upsertRow tb a.1 a.2)) x.1
            = rowsAt (upsertRow tb a.1 a.2) x.1 :=
          rowsAt_upsertBatch_not_mem rs _ x.1 hnone
        have hxin : x ∈ rowsAt (upsertBatch rs (upsertRow tb a.1 a.2)) x.1 :=
          List.mem_filter.2 ⟨hx, by simp⟩
        rw [hrows] at hxin
        have hx2 : x ∈ upsertRow tb a.1 a.2 := (List.mem_filter.1 hxin).1
        have := val_upsertRow_at hx2 ha.symm
        rw [this]
        simp [hv2]
      · rw [if_neg ha] at hv2
        exact Option.noConfusion hv2

theorem upsertBatch_twice (rows : List (Int × Int)) (tb : Table) :
    upsertBatch rows (upsertBatch rows tb) = upsertBatch rows tb := by
  have hall : ∀ r ∈ rows, hasKey (upsertBatch rows tb) r.1 = true := by
    intro r hr
    rw [hasKey_eq_mem_keys]
    exact keys_upsertBatch_of_mem rows tb r hr
  rw [upsertBatch_inplace rows _ hall]
  have h : ∀ x ∈ upsertBatch rows tb, overwrite rows x = x := by
    intro x hx
    unfold overwrite
    cases h : lastVal rows x.1 with
    | none => rfl
    | some v => exact (upsertBatch_final_val rows tb x hx v h).symm
  rw [map_congr_mem h, List.map_id']

theorem keys_nodup_upsertRow {tb : Table} {t v : Int}
    (h : (keys tb).Nodup) : (keys (upsertRow tb t v)).Nodup := by
  cases hk : hasKey tb t with
  | true => rw [keys_upsertRow_pos v hk]; exact h
  | false =>
    rw [keys_upsertRow_neg v hk]
    have ht : t ∉ keys tb := by
      intro hmem
      rw [(hasKey_eq_mem_keys tb t).2 hmem] at hk
      exact Bool.noConfusion hk
    simp [List.nodup_append, h, ht]

theorem keys_nodup_upsertBatch (rows : List (Int × Int)) :
    ∀ (tb : Table), (keys tb).Nodup → (keys (upsertBatch rows tb)).Nodup := by
  induction rows with
  | nil => intro tb h; exact h
  | cons a rs ih =>
    intro tb h
    rw [upsertBatch_cons]
    exact ih _ (keys_nodup_upsertRow h)

theorem mem_upsertBatch_of_null (rows : List (Int × Int)) :
    ∀ (tb : Table) (x : Int × Option Int), x ∈ upsertBatch rows tb →
      x.2 = none → x ∈ tb := by
  induction rows with
  | nil => intro tb x hx _; exact hx
  | cons a rs ih =>
    intro tb x hx hnull
    rw [upsertBatch_cons] at hx
    rcases mem_upsertRow (ih _ x hx hnull) with h | h
    · exfalso
      rw [h] at hnull
      exact Option.noConfusion hnull
    · exact h

theorem data_to_insert_key_absent {df : List (Int × Option Int)} {τ : Int}
    (h : ∀ v, ((τ, some v) : Int × Option Int) ∉ df) :
    ∀ r ∈ data_to_insert df, r.1 ≠ τ := by
  intro r hr
  rcases List.mem_filterMap.1 hr with ⟨p, hp, hfp⟩
  rcases Option.map_eq_some'.1 hfp with ⟨w, hw, hpr⟩
  intro hτ
  apply h w
  have : p = (τ, some w) := by
    have h1 : p.1 = τ := by rw [← hτ, ← hpr]
    have h2 : p.2 = some w := hw
    cases p
    simp only [Prod.mk.injEq] at h1 h2 ⊢
    exact ⟨h1, h2⟩
  rw [← this]
  exact hp

/-- C1: the claim says a failed last-timestamp read is distinguished from an
empty table and never yields a full-lookback window.  The code violates this:
get_last_timestamp returns None on a psycopg2 error, exactly as on an empty
table, and run_parser then computes start = now - DAYS_BACK days and proceeds
to a full-lookback fetch.  Evaluated here at a concrete failing input: a
non-empty table whose read errors, now = 1000000, DAYS_BACK = 30. -/
theorem c1_failed_read_conflated_with_empty :
    get_last_timestamp true [((1000 : Int), some 5)] = none ∧
    get_last_timestamp false ([] : Table) = none ∧
    computeStart (get_last_timestamp true [((1000 : Int), some 5)]) 1000000 30
      = 1000000 - 30 * 86400 ∧
    (runParserCycle ⟨true, .ok [], false, 1000000, 1000001⟩ 30
      [((1000 : Int), some 5)]).fetched = true := by
  refine ⟨rfl, rfl, rfl, ?_⟩
  decide

/-- C2: the claim (and the spec scenario in section 8) requires start =
(T interpreted in the Store timezone, converted to UTC) + 1 hour.  The code
computes start = T + 1 hour on the naive timestamp with no conversion.
Evaluated at the spec scenario: T = 2024-01-01 23:00 naive (epoch-as-naive
1704150000) in a UTC+3 store zone: the code yields 2024-01-02 00:00
(1704153600) while the claimed value is 2024-01-01 21:00 UTC (1704142800). -/
theorem c2_start_not_converted_to_utc :
    computeStart (some 1704150000) 0 30 = 1704153600 ∧
    specWindowStart 10800 1704150000 = 1704142800 ∧
    computeStart (some 1704150000) 0 30 ≠ specWindowStart 10800 1704150000 := by
  refine ⟨rfl, rfl, ?_⟩
  decide

/-- C3: write_data never raises a database error to its caller: whatever the
batch, the table state and the database-error event, it returns normally
(raised = none), so the Driver sees a failed and a successful batch write
identically. -/
theorem c3_write_data_never_raises (e : Bool) (df : List (Int × Option Int))
    (tb : Table) :
    (write_data e df tb).raised = none ∧
    (write_data true df tb).raised = (write_data false df tb).raised := by
  exact ⟨write_data_raised_none e df tb, by
    rw [write_data_raised_none, write_data_raised_none]⟩

/-- C5 counterexample: the claim states that for an empty Store the window
start is now_utc minus the lookback window.  The code uses datetime.now(),
the naive local clock: on a host whose UTC offset is +3 hours (10800 s) at
UTC instant 1704150000 with DAYS_BACK = 30, the code start differs from
now_utc - 30 days by the host offset. -/
theorem c5_local_clock_counterexample :
    computeStart none (datetime_now 1704150000 10800) 30
      ≠ 1704150000 - 30 * 86400 := by
  decide

/-- C5 amended: when the Store is empty, start equals the first
datetime.now() reading (the naive local clock) minus DAYS_BACK days,
independent of the read-error event and of any prior state. -/
theorem c5_empty_store_start (tb : Table) (h : tb = []) (dbE : Bool)
    (now1 daysBack : Int) :
    computeStart (get_last_timestamp dbE tb) now1 daysBack
      = now1 - daysBack * 86400 := by
  subst h
  cases dbE <;> rfl

/-- C5 witness: the amended statement at a concrete empty store. -/
theorem c5_empty_store_start_witness :
    computeStart (get_last_timestamp false ([] : Table)) 1704150000 30
      = 1704150000 - 30 * 86400 :=
  c5_empty_store_start [] rfl false 1704150000 30

/-- C7: when the computed window start is at or past the cycle end, run_parser
returns before the provider is called: nothing is fetched, nothing is
written, and the table is untouched. -/
theorem c7_noop_when_start_ge_end (env : CycleEnv) (daysBack : Int)
    (tb : Table)
    (h : computeStart (get_last_timestamp env.dbReadError tb) env.now1 daysBack
      ≥ env.now2) :
    runParserCycle env daysBack tb = ⟨false, false, tb⟩ := by
  unfold runParserCycle
  rw [if_pos h]

/-- C7 witness: a store whose last timestamp is ahead of the clock. -/
theorem c7_noop_when_start_ge_end_witness :
    runParserCycle ⟨false, .ok [], false, 0, 0⟩ 30 [((10000 : Int), some 1)]
      = ⟨false, false, [((10000 : Int), some 1)]⟩ :=
  c7_noop_when_start_ge_end ⟨false, .ok [], false, 0, 0⟩ 30
    [((10000 : Int), some 1)] (by decide)

/-- C9: the batch write is atomic: the resulting table is either the input
table unchanged or the full application of every eligible row, and on a
database error it is always the input table unchanged. -/
theorem c9_write_atomic (e : Bool) (df : List (Int × Option Int))
    (tb : Table) :
    ((write_data e df tb).table = tb ∨
      (write_data e df tb).table = upsertBatch (data_to_insert df) tb) ∧
    (e = true → (write_data e df tb).table = tb) := by
  refine ⟨write_data_table_cases e df tb, fun he => ?_⟩
  subst he
  exact write_data_table_err df tb

/-- C9 witness: a failing write over a non-empty batch leaves the concrete
store unchanged. -/
theorem c9_write_atomic_witness :
    (write_data true [((0 : Int), some 1)] [((5 : Int), some 2)]).table
      = [((5 : Int), some 2)] :=
  (c9_write_atomic true [((0 : Int), some 1)] [((5 : Int), some 2)]).2 rfl

/-- C6: the batch upsert is idempotent: applying the same batch twice equals
applying it once; a table with unique times keeps unique times (no timestamp
gains a duplicate row); and every surviving row at a time the batch touches
holds the last-written temperature of that batch. -/
theorem c6_upsert_idempotent (rows : List (Int × Int)) (tb : Table) :
    upsertBatch rows (upsertBatch rows tb) = upsertBatch rows tb ∧
    ((keys tb).Nodup → (keys (upsertBatch rows tb)).Nodup) ∧
    (∀ x ∈ upsertBatch rows tb, ∀ v, lastVal rows x.1 = some v →
      x.2 = some v) := by
  refine ⟨upsertBatch_twice rows tb, keys_nodup_upsertBatch rows tb, ?_⟩
  intro x hx v hv
  rw [upsertBatch_final_val rows tb x hx v hv]

/-- C6 witness: a concrete batch with a repeated timestamp over a concrete
store with one overlapping row. -/
theorem c6_upsert_idempotent_witness :
    upsertBatch [((1 : Int), (5 : Int)), (2, 7), (1, 9)]
        (upsertBatch [((1 : Int), (5 : Int)), (2, 7), (1, 9)]
          [((2 : Int), some 3), (4, none)])
      = upsertBatch [((1 : Int), (5 : Int)), (2, 7), (1, 9)]
          [((2 : Int), some 3), (4, none)] ∧
    (keys (upsertBatch [((1 : Int), (5 : Int)), (2, 7), (1, 9)]
        [((2 : Int), some 3), (4, none)])).Nodup ∧
    (((1 : Int), some (9 : Int)) : Int × Option Int).2 = some 9 := by
  refine ⟨(c6_upsert_idempotent _ _).1,
    (c6_upsert_idempotent _ _).2.1 (by decide), ?_⟩
  exact (c6_upsert_idempotent [((1 : Int), (5 : Int)), (2, 7), (1, 9)]
    [((2 : Int), some 3), (4, none)]).2.2 (1, some 9) (by decide) 9 (by decide)

/-- C8: rows whose temperature is absent are dropped before the write: a
timestamp for which the batch has no present-temperature row keeps exactly
its previous stored rows, and any row with a null temperature found in the
table after the write was already there before it. -/
theorem c8_null_rows_never_written (e : Bool) (df : List (Int × Option Int))
    (tb : Table) :
    (∀ τ : Int, (∀ v : Int, ((τ, some v) : Int × Option Int) ∉ df) →
      rowsAt ((write_data e df tb).table) τ = rowsAt tb τ) ∧
    (∀ x ∈ (write_data e df tb).table, x.2 = none → x ∈ tb) := by
  rcases write_data_table_cases e df tb with h | h <;> rw [h]
  · exact ⟨fun τ _ => rfl, fun x hx _ => hx⟩
  · constructor
    · intro τ hτ
      exact rowsAt_upsertBatch_not_mem _ tb τ (data_to_insert_key_absent hτ)
    · intro x hx hnull
      exact mem_upsertBatch_of_null _ tb x hx hnull

/-- C8 witness: a batch that does not mention timestamp 1 with a present
temperature leaves the stored null row at 1 untouched, and the null row
found after the write was present before it. -/
theorem c8_null_rows_never_written_witness :
    rowsAt ((write_data false [((2 : Int), some 4)]
      [((1 : Int), none)]).table) 1 = rowsAt [((1 : Int), none)] 1 ∧
    (((1 : Int), (none : Option Int)) ∈ ([((1 : Int), none)] : Table)) := by
  constructor
  · refine (c8_null_rows_never_written false [((2 : Int), some 4)]
      [((1 : Int), none)]).1 1 ?_
    intro v
    simp
  · exact (c8_null_rows_never_written false [((2 : Int), some 4)]
      [((1 : Int), none)]).2 (1, none) (by decide) rfl

/-- C4: failure isolation of the main loop: after n iterations exactly n
cycles have run whatever the per-cycle events were, every iteration sleeps
the fixed DELAY_MINUTES * 60 seconds, and a cycle whose provider fetch
raises still returns a normal cycle result with the table unchanged — the
exception never escapes run_parser, so it never reaches the outer loop. -/
theorem c4_cycle_failure_isolated (env : Nat → CycleEnv)
    (daysBack delayMinutes : Int) (t0 : Table) (n : Nat) :
    (serviceRun env daysBack delayMinutes t0 n).cyclesRun = n ∧
    (serviceStep (env n) daysBack delayMinutes
      (serviceRun env daysBack delayMinutes t0 n)).2 = delayMinutes * 60 ∧
    (∀ (e : Unit) (tb : Table), (env n).fetchResult = .error e →
      runParserCycle (env n) daysBack tb =
        if computeStart (get_last_timestamp (env n).dbReadError tb)
            (env n).now1 daysBack ≥ (env n).now2
        then ⟨false, false, tb⟩ else ⟨true, false, tb⟩) := by
  refine ⟨?_, rfl, ?_⟩
  · induction n with
    | zero => rfl
    | succ m ih => simp [serviceRun, serviceStep, ih]
  · intro e tb hf
    unfold runParserCycle
    by_cases h : computeStart (get_last_timestamp (env n).dbReadError tb)
        (env n).now1 daysBack ≥ (env n).now2
    · rw [if_pos h, if_pos h]
    · rw [if_neg h, if_neg h]
      simp [fetchAndWriteBody, hf]

/-- C4 witness: two iterations under a provider that always raises: both
cycles run, the sleep is the configured one, and the failing cycle returns
normally with the table unchanged. -/
theorem c4_cycle_failure_isolated_witness :
    (serviceRun (fun _ => ⟨false, .error (), false, 0, 100⟩) 0 65 [] 2).cyclesRun
      = 2 ∧
    (serviceStep ⟨false, .error (), false, 0, 100⟩ 0 65
      (serviceRun (fun _ => ⟨false, .error (), false, 0, 100⟩) 0 65 [] 1)).2
      = 65 * 60 ∧
    runParserCycle ⟨false, .error (), false, 0, 100⟩ 0 [] = ⟨true, false, []⟩ := by
  refine ⟨(c4_cycle_failure_isolated (fun _ => ⟨false, .error (), false, 0, 100⟩)
    0 65 [] 2).1, ?_, ?_⟩
  · exact (c4_cycle_failure_isolated (fun _ => ⟨false, .error (), false, 0, 100⟩)
      0 65 [] 1).2.1
  · have h := (c4_cycle_failure_isolated
      (fun _ => ⟨false, .error (), false, 0, 100⟩) 0 65 [] 0).2.2 () [] rfl
    rw [h]
    decide

theorem startupExits_of_missing {e : Env} (h : missing_vars e ≠ []) :
    startupExits (loadConfig e) = true := by
  unfold loadConfig
  rw [if_pos h]
  rfl

theorem missing_vars_ne_nil_of (e : Env) (name : String) (v : Option String)
    (hmem : (name, v) ∈ REQUIRED_VARS e) (h : present v = false) :
    missing_vars e ≠ [] := by
  have hm : name ∈ missing_vars e := by
    unfold missing_vars
    exact List.mem_map.2 ⟨(name, v),
      List.mem_filter.2 ⟨hmem, by simp [h]⟩, rfl⟩
  exact List.ne_nil_of_mem hm

theorem floatOf_eq_error {v : Option String} (h : v.bind pyFloat? = none) :
    floatOf v = .error .badFormat := by
  cases hv : v with
  | none => rfl
  | some s =>
    rw [hv] at h
    have h2 : pyFloat? s = none := h
    simp [floatOf, h2]

/-- C10: startup validation.  A missing latitude, longitude or Store
connection parameter makes the load exit; a set but non-numeric latitude or
longitude makes the load exit; on a successful load an unset lookback
defaults to 30 days and an unset cycle interval to 65 minutes; and when the
load exits, the main loop never runs a single cycle. -/
theorem c10_config_validated_at_startup (e : Env) :
    ((present e.LAT = false ∨ present e.LON = false ∨
      present e.POSTGRES_HOST = false ∨ present e.POSTGRES_PORT = false ∨
      present e.POSTGRES_DB = false ∨ present e.POSTGRES_USER = false ∨
      present e.POSTGRES_PASSWORD = false ∨ present e.POSTGRES_TABLE = false) →
      startupExits (loadConfig e) = true) ∧
    ((e.LAT.bind pyFloat? = none ∨ e.LON.bind pyFloat? = none) →
      startupExits (loadConfig e) = true) ∧
    (∀ c, loadConfig e = .ok c →
      (e.DAYS_BACK = none → c.daysBack = 30) ∧
      (e.DELAY_MINUTES = none → c.delayMinutes = 65)) ∧
    (∀ err, loadConfig e = .error err →
      ∀ (cenv : Nat → CycleEnv) (t0 : Table) (n : Nat),
        mainProcess e cenv t0 n = none) := by
  refine ⟨?_, ?_, ?_, ?_⟩
  · intro hd
    rcases hd with h | h | h | h | h | h | h | h
    · exact startupExits_of_missing
        (missing_vars_ne_nil_of e "LAT" e.LAT (by simp [REQUIRED_VARS]) h)
    · exact startupExits_of_missing
        (missing_vars_ne_nil_of e "LON" e.LON (by simp [REQUIRED_VARS]) h)
    · exact startupExits_of_missing (missing_vars_ne_nil_of e "POSTGRES_HOST"
        e.POSTGRES_HOST (by simp [REQUIRED_VARS]) h)
    · exact startupExits_of_missing (missing_vars_ne_nil_of e "POSTGRES_PORT"
        e.POSTGRES_PORT (by simp [REQUIRED_VARS]) h)
    · exact startupExits_of_missing (missing_vars_ne_nil_of e "POSTGRES_DB"
        e.POSTGRES_DB (by simp [REQUIRED_VARS]) h)
    · exact startupExits_of_missing (missing_vars_ne_nil_of e "POSTGRES_USER"
        e.POSTGRES_USER (by simp [REQUIRED_VARS]) h)
    · exact startupExits_of_missing (missing_vars_ne_nil_of e
        "POSTGRES_PASSWORD" e.POSTGRES_PASSWORD (by simp [REQUIRED_VARS]) h)
    · exact startupExits_of_missing (missing_vars_ne_nil_of e "POSTGRES_TABLE"
        e.POSTGRES_TABLE (by simp [REQUIRED_VARS]) h)
  · intro hb
    by_cases hm : missing_vars e ≠ []
    · exact startupExits_of_missing hm
    · unfold loadConfig
      rw [if_neg hm]
      rcases hb with hb | hb
      · rw [floatOf_eq_error hb]
        rfl
      · cases hA : floatOf e.LAT with
        | error err => rfl
        | ok lat =>
          rw [floatOf_eq_error hb]
          rfl
  · intro c hc
    unfold loadConfig at hc
    by_cases hm : missing_vars e ≠ []
    · rw [if_pos hm] at hc
      exact absurd hc (by simp)
    · rw [if_neg hm] at hc
      cases hA : floatOf e.LAT with
      | error err => rw [hA] at hc; exact absurd hc (by simp)
      | ok lat =>
        rw [hA] at hc
        cases hB : floatOf e.LON with
        | error err => rw [hB] at hc; exact absurd hc (by simp)
        | ok lon =>
          rw [hB] at hc
          cases hD : intOfD e.DAYS_BACK 30 with
          | error err => rw [hD] at hc; exact absurd hc (by simp)
          | ok db =>
            rw [hD] at hc
            cases hE : intOfD e.DELAY_MINUTES 65 with
            | error err => rw [hE] at hc; exact absurd hc (by simp)
            | ok dm =>
              rw [hE] at hc
              cases hP : intOf e.POSTGRES_PORT with
              | error err => rw [hP] at hc; exact absurd hc (by simp)
              | ok port =>
                rw [hP] at hc
                injection hc with hc
                constructor
                · intro hDB
                  rw [← hc]
                  show db = 30
                  rw [hDB] at hD
                  simp only [intOfD] at hD
                  injection hD with hD
                  omega
                · intro hDM
                  rw [← hc]
                  show dm = 65
                  rw [hDM] at hE
                  simp only [intOfD] at hE
                  injection hE with hE
                  omega
  · intro err hcerr cenv t0 n
    unfold mainProcess
    rw [hcerr]

/-- C10 witness: an empty environment exits and runs no cycle; a fully set
environment with unset DAYS_BACK and DELAY_MINUTES loads with the 30-day and
65-minute defaults; a non-numeric latitude exits. -/
theorem c10_config_validated_at_startup_witness :
    startupExits (loadConfig
      ⟨none, none, none, none, none, none, none, none, none, none, none⟩)
      = true ∧
    startupExits (loadConfig
      ⟨none, some "abc", some "37", none, none, some "h", some "5432",
        some "d", some "u", some "p", some "t"⟩) = true ∧
    ((⟨"Default Location", ⟨false, 55, 0⟩, ⟨false, 37, 0⟩, 30, 65,
        some "localhost", 5432, some "db", some "u", some "p",
        some "weather"⟩ : Config).daysBack = 30 ∧
      (⟨"Default Location", ⟨false, 55, 0⟩, ⟨false, 37, 0⟩, 30, 65,
        some "localhost", 5432, some "db", some "u", some "p",
        some "weather"⟩ : Config).delayMinutes = 65) ∧
    mainProcess
      ⟨none, none, none, none, none, none, none, none, none, none, none⟩
      (fun _ => ⟨false, .ok [], false, 0, 0⟩) [] 3 = none := by
  refine ⟨?_, ?_, ⟨?_, ?_⟩, ?_⟩
  · exact (c10_config_validated_at_startup _).1 (Or.inl rfl)
  · exact (c10_config_validated_at_startup
      ⟨none, some "abc", some "37", none, none, some "h", some "5432",
        some "d", some "u", some "p", some "t"⟩).2.1 (Or.inl rfl)
  · exact ((c10_config_validated_at_startup
      ⟨none, some "55", some "37", none, none, some "localhost", some "5432",
        some "db", some "u", some "p", some "weather"⟩).2.2.1
      ⟨"Default Location", ⟨false, 55, 0⟩, ⟨false, 37, 0⟩, 30, 65,
        some "localhost", 5432, some "db", some "u", some "p",
        some "weather"⟩ (by decide)).1 rfl
  · exact ((c10_config_validated_at_startup
      ⟨none, some "55", some "37", none, none, some "localhost", some "5432",
        some "db", some "u", some "p", some "weather"⟩).2.2.1
      ⟨"Default Location", ⟨false, 55, 0⟩, ⟨false, 37, 0⟩, 30, 65,
        some "localhost", 5432, some "db", some "u", some "p",
        some "weather"⟩ (by decide)).2 rfl
  · exact (c10_config_validated_at_startup _).2.2.2
      (.missingRequired ["LAT", "LON", "POSTGRES_HOST", "POSTGRES_PORT",
        "POSTGRES_DB", "POSTGRES_USER", "POSTGRES_PASSWORD",
        "POSTGRES_TABLE"]) (by decide) (fun _ => ⟨false, .ok [], false, 0, 0⟩) [] 3
